import Mathlib

/-!
Verification of the CloudBakery baking pipeline against its specification.

The development shallowly embeds:
* the shader math of `src/shaders/Common.hlsli` (`viewDirFromFace`, the
  `Phase` namespace) over the real numbers,
* the bake compute kernel (the repository's phase-corrected bake kernel,
  given in the sources as an unnamed shader file) per texel,
* the host-side per-set pipeline of `src/main.cpp` (set validation,
  accumulator clearing, the per-sample dispatch loop, asset saving and the
  optional validation pass) as a pure state-passing model,
* the input-catalog filename matching of `src/main.cpp` (the two RE2
  patterns, `faceStrToUint`, and the per-file ingestion control flow) as
  executable functions on strings, and
* the D3D11 binding discipline (CSSetShaderResources /
  CSSetUnorderedAccessViews / Dispatch / capture) as a command trace with an
  explicit binding-state machine.

Shader floating point arithmetic is modelled over `ℝ`; machine floats have
no exact counterpart, and all claims settled here are about the algebraic
structure of the computation, which `ℝ` captures.
-/

namespace CloudBakery

/-- 3-component float vector, as used by the shaders (`float3`). -/
abbrev Vec3 : Type := ℝ × ℝ × ℝ

noncomputable def dot3 (a b : Vec3) : ℝ := a.1 * b.1 + a.2.1 * b.2.1 + a.2.2 * b.2.2

noncomputable def neg3 (a : Vec3) : Vec3 := (-a.1, -a.2.1, -a.2.2)

noncomputable def add3 (a b : Vec3) : Vec3 := (a.1 + b.1, a.2.1 + b.2.1, a.2.2 + b.2.2)

/-- Euclidean length of a `float3`, as used by HLSL `normalize`. -/
noncomputable def norm3 (a : Vec3) : ℝ := Real.sqrt (a.1 ^ 2 + a.2.1 ^ 2 + a.2.2 ^ 2)

/-- HLSL `normalize`: divide each component by the Euclidean length. -/
noncomputable def normalize3 (a : Vec3) : Vec3 :=
  (a.1 / norm3 a, a.2.1 / norm3 a, a.2.2 / norm3 a)

/-- HLSL `lerp(x, y, s) = x + s*(y - x)`. -/
noncomputable def lerp (x y s : ℝ) : ℝ := x + s * (y - x)

/-- The shader's pi literal `3.1415926` (`Common.hlsli`, `Bake.cs.hlsl`). -/
noncomputable def hlslPi : ℝ := 3.1415926

/-- From `Common.hlsli` (`viewDirFromFace`): the per-face tangent warp of the
texel uv, `face_pos = tan((uv - .5) * .5 * 3.1415926) * .5`, componentwise. -/
noncomputable def facePos (uv : ℝ × ℝ) : ℝ × ℝ :=
  (Real.tan ((uv.1 - 0.5) * 0.5 * hlslPi) * 0.5,
   Real.tan ((uv.2 - 0.5) * 0.5 * hlslPi) * 0.5)

/-- From `Common.hlsli`: the pre-normalization per-face assembly of the view
direction inside `viewDirFromFace` (the `switch (face)` block; faces are
0-4 for +x -x +y -y +z, any other face yields `float3(1, 0, 0)`). -/
noncomputable def faceAssemble (face : ℕ) (fp : ℝ × ℝ) : Vec3 :=
  match face with
  | 0 => (0.5, -fp.1, -fp.2)
  | 1 => (-0.5, fp.1, -fp.2)
  | 2 => (fp.1, 0.5, -fp.2)
  | 3 => (-fp.1, -0.5, -fp.2)
  | 4 => (-fp.1, -fp.2, 0.5)
  | _ => (1, 0, 0)

/-- From `Common.hlsli`: `viewDirFromFace(face, uv)`. -/
noncomputable def viewDirFromFace (face : ℕ) (uv : ℝ × ℝ) : Vec3 :=
  normalize3 (faceAssemble face (facePos uv))

namespace Phase

/-- From `Common.hlsli`: the isotropic phase constant `.25 / 3.1415926`
(the `scale` local of `HG`, `Draine` and `MsHeuristic`). -/
noncomputable def scale : ℝ := 0.25 / 3.1415926

/-- From `Common.hlsli`: `Phase::HG`. -/
noncomputable def HG (cos_theta g : ℝ) : ℝ :=
  let g2 := g * g
  let num := 1.0 - g2
  let denom := Real.rpow (abs (1.0 + g2 - 2.0 * g * cos_theta)) 1.5
  scale * num / denom

/-- From `Common.hlsli`: `Phase::Draine`. -/
noncomputable def Draine (cos_theta g alpha : ℝ) : ℝ :=
  let g2 := g * g
  let num := (1.0 - g2) * (1.0 + alpha * cos_theta * cos_theta)
  let denom := Real.rpow (abs (1.0 + g2 - 2.0 * g * cos_theta)) 1.5 *
    (1.0 + alpha * (1.0 + 2.0 * g2) / 3.0)
  scale * num / denom

/-- From `Common.hlsli`: `Phase::JendersieAt10um`, the two-lobe blend
`lerp(HG(c, 0.9882), Draine(c, 0.5557, 21.9955), 0.4820)`. -/
noncomputable def JendersieAt10um (cos_theta : ℝ) : ℝ :=
  lerp (HG cos_theta 0.9882) (Draine cos_theta 0.5557 21.9955) 0.4820

/-- From `Common.hlsli`: `Phase::MsHeuristic`, the two-lobe value blended
toward the isotropic constant by `w = 1 - pow(tr, 0.5)`. -/
noncomputable def MsHeuristic (cos_theta tr : ℝ) : ℝ :=
  let w := 1 - Real.rpow tr 0.5
  lerp (JendersieAt10um cos_theta) scale w

end Phase

namespace SH

/-- Modelled from the spec: the file `SH_Lite.hlsli` included by the kernels
is not among the given sources. The spec (4.3, glossary) describes its
basis as "the 9 real SH basis functions for bands 0-2"; these are the
standard real spherical harmonics of bands 0, 1 and 2 evaluated at a
direction. -/
noncomputable def shBasis (d : Vec3) : Fin 9 → ℝ :=
  fun i =>
    match i with
    | 0 => Real.sqrt (1 / (4 * Real.pi))
    | 1 => Real.sqrt (3 / (4 * Real.pi)) * d.2.1
    | 2 => Real.sqrt (3 / (4 * Real.pi)) * d.2.2
    | 3 => Real.sqrt (3 / (4 * Real.pi)) * d.1
    | 4 => Real.sqrt (15 / (4 * Real.pi)) * d.1 * d.2.1
    | 5 => Real.sqrt (15 / (4 * Real.pi)) * d.2.1 * d.2.2
    | 6 => Real.sqrt (5 / (16 * Real.pi)) * (3 * d.2.2 ^ 2 - 1)
    | 7 => Real.sqrt (15 / (4 * Real.pi)) * d.1 * d.2.2
    | 8 => Real.sqrt (15 / (16 * Real.pi)) * (d.1 ^ 2 - d.2.1 ^ 2)

/-- Modelled from the spec: `SH::ProjectOntoL2(dir, value)` from the missing
`SH_Lite.hlsli` "projects `(light_dir, corrected * weight * 4pi)` onto the 9
real SH basis functions for bands 0-2" (spec 4.3), i.e. scales each basis
function evaluated at the direction by the value. -/
noncomputable def ProjectOntoL2 (dir : Vec3) (value : ℝ) : Fin 9 → ℝ :=
  fun i => value * shBasis dir i

/-- Modelled from the spec: `SH::Evaluate(sh, dir)` from the missing
`SH_Lite.hlsli` "reconstructs the accumulated SH function evaluated at a
single chosen light direction" (spec 4.5): the sum of the 9 coefficients
times the basis functions at that direction. -/
noncomputable def Evaluate (c : Fin 9 → ℝ) (dir : Vec3) : ℝ :=
  ∑ i : Fin 9, c i * shBasis dir i

end SH

/-- From the bake kernel (the unnamed phase-corrected compute shader in the
sources, whose uniform block matches `BakeCBData` of `main.cpp`): the texel
uv, `uv = (tid.xy + .5) / dims`, where `dims` are the transmittance image
dimensions reported by `GetDimensions`. -/
noncomputable def texelUV (dims : ℕ × ℕ) (tid : ℕ × ℕ) : ℝ × ℝ :=
  (((tid.1 : ℝ) + 0.5) / (dims.1 : ℝ), ((tid.2 : ℝ) + 0.5) / (dims.2 : ℝ))

/-- From the bake kernel's `main`: the per-texel body. `radiance` and `tr`
are the two input images, `acc` holds the three per-texel accumulator slots
(the three layers / images written with `+=`), `tid` the thread id. -/
noncomputable def bakeTexel (light_dir : Vec3) (weight : ℝ) (face : ℕ)
    (dims : ℕ × ℕ) (radiance tr : ℕ × ℕ → ℝ)
    (acc : Fin 3 → Vec3) (tid : ℕ × ℕ) : Fin 3 → Vec3 :=
  let color := radiance tid
  let uv := texelUV dims tid
  let view_dir := viewDirFromFace face uv
  let u := dot3 (neg3 view_dir) light_dir
  let phase := Phase.MsHeuristic u (tr tid)
  let color2 := color / phase
  let sh := SH.ProjectOntoL2 light_dir (color2 * weight * 4 * 3.1415926)
  fun l =>
    match l with
    | 0 => add3 (acc 0) (sh 0, sh 1, sh 2)
    | 1 => add3 (acc 1) (sh 3, sh 4, sh 5)
    | 2 => add3 (acc 2) (sh 6, sh 7, sh 8)

/-- From `Validation.cs.hlsl`: repack the three per-texel accumulator slots
into the 9 coefficients `sh.C[0..8]` (`sh0.xyz, sh1.xyz, sh2.xyz`). -/
noncomputable def packL2 (acc : Fin 3 → Vec3) : Fin 9 → ℝ :=
  fun i =>
    match i with
    | 0 => (acc 0).1
    | 1 => (acc 0).2.1
    | 2 => (acc 0).2.2
    | 3 => (acc 1).1
    | 4 => (acc 1).2.1
    | 5 => (acc 1).2.2
    | 6 => (acc 2).1
    | 7 => (acc 2).2.1
    | 8 => (acc 2).2.2

/-- From `Validation.cs.hlsl` `main`: the per-texel reconstruction,
`RWTexOut[tid] = SH::Evaluate(sh, light_dir)`. -/
noncomputable def validationTexel (acc : Fin 3 → Vec3) (light_dir : Vec3) : ℝ :=
  SH.Evaluate (packL2 acc) light_dir

/-- From `main.cpp` (`InputTexture`): a loaded input image. `data` models the
texel contents behind the shader resource view. -/
structure InputTexture where
  light_direction : Vec3
  width : ℕ
  height : ℕ
  data : ℕ × ℕ → ℝ

/-- From `main.cpp` (`InputTexSet`): one texture set. `tr = none` models the
`tr.srv == nullptr` check (no transmittance texture was loaded). -/
structure InputTexSet where
  face : ℕ
  tr : Option InputTexture
  colors : List InputTexture

/-- From `main.cpp` (`BakeCBData`): the uniform-buffer contents (padding
omitted, it carries no information). -/
structure BakeCBData where
  light_dir : Vec3
  weight : ℝ
  face : ℕ

/-- The three SH accumulator images (`tex_sh_coeffs`), one `Vec3` texel per
layer. -/
abbrev AccumImages : Type := Fin 3 → ℕ × ℕ → Vec3

/-- The accumulator contents produced by `initTex` +
`ClearUnorderedAccessViewFloat` with `values = {0, 0, 0, 0}`. -/
noncomputable def zeroAcc : AccumImages := fun _ _ => (0, 0, 0)

/-- One bake `Dispatch` over the `ceil(w/8) x ceil(h/8)` grid: every texel
inside the image is updated by `bakeTexel` (threads outside the image write
nothing). -/
noncomputable def dispatchImage (cb : BakeCBData) (rad trd : ℕ × ℕ → ℝ)
    (dims : ℕ × ℕ) (acc : AccumImages) : AccumImages :=
  fun l tid =>
    if tid.1 < dims.1 ∧ tid.2 < dims.2 then
      bakeTexel cb.light_dir cb.weight cb.face dims rad trd (fun j => acc j tid) tid l
    else acc l tid

/-- Observable pipeline events of `main.cpp`'s processing loop: the
set-skipping warnings, the per-sample bake dispatches (with the uniform
data they were issued with), the three accumulator saves
(`{key}_sh{i}.dds`), the validation dispatch (with the light direction the
kernel reads from the constant buffer) and the validation save
(`{key}_{x:.2f}_{y:.2f}_{z:.2f}_re.dds`, represented by the key and the
direction the name is formatted from). -/
inductive Event where
  | warnSkip (key : String)
  | dispatchBake (cb : BakeCBData)
  | saveSh (key : String) (i : ℕ) (content : ℕ × ℕ → Vec3)
  | dispatchValidation (dir : Vec3)
  | saveVal (key : String) (dir : Vec3) (content : ℕ × ℕ → ℝ)

/-- From `main.cpp`: the per-sample dispatch loop (`for (auto const& entry :
tex_set.colors)`). Arguments: the host `cb_data` value and the GPU constant
buffer contents; per sample the host `cb_data.light_dir` is set, pushed with
`UpdateSubresource`, and one dispatch is issued. Returns the final
accumulators, host `cb_data`, GPU buffer contents, and the dispatch
events. -/
noncomputable def bakeLoop (dims : ℕ × ℕ) (trd : ℕ × ℕ → ℝ) :
    List InputTexture → BakeCBData → BakeCBData → AccumImages →
    AccumImages × BakeCBData × BakeCBData × List Event
  | [], cb, buf, acc => (acc, cb, buf, [])
  | c :: rest, cb, _buf, acc =>
    let cb2 := { cb with light_dir := c.light_direction }
    let acc2 := dispatchImage cb2 c.data trd dims acc
    let r := bakeLoop dims trd rest cb2 cb2 acc2
    (r.1, r.2.1, r.2.2.1, Event.dispatchBake cb2 :: r.2.2.2)

/-- The pipeline state carried across sets: the (single-buffered) GPU
constant buffer contents paired with whatever the accumulator textures held
last. -/
abbrev RunState : Type := AccumImages × BakeCBData

/-- From `main.cpp`: the three `saveTextureToDDS` calls writing
`{key}_sh{0,1,2}.dds` from the accumulator contents. -/
noncomputable def shSaves (key : String) (acc : AccumImages) : List Event :=
  [Event.saveSh key 0 (acc 0), Event.saveSh key 1 (acc 1), Event.saveSh key 2 (acc 2)]

/-- From `main.cpp`: the optional validation pass of one set - a dispatch
of the validation kernel, which reads the light direction still in the GPU
constant buffer, and the save of the reconstruction named from the host
`cb_data.light_dir`. -/
noncomputable def setValPass (validation : Bool) (key : String) (acc : AccumImages)
    (cbN bufN : BakeCBData) : List Event :=
  if validation then
    [Event.dispatchValidation bufN.light_dir,
     Event.saveVal key cbN.light_dir
       (fun tid => validationTexel (fun l => acc l tid) bufN.light_dir)]
  else []

/-- From `main.cpp`: processing of one texture set (the body of the
`for (auto const& [key, tex_set] : d3d.tex_inputs)` loop): skip with a
warning when the transmittance is missing or any radiance sample's
dimensions differ; otherwise clear the accumulators, compute
`weight = 1 / colors.size()`, dispatch once per sample, save the three
accumulators, and optionally run and save the validation pass. -/
noncomputable def processSet (st : RunState) (validation : Bool) (key : String)
    (s : InputTexSet) : RunState × List Event :=
  match s.tr with
  | none => (st, [Event.warnSkip key])
  | some t =>
    if s.colors.any (fun c => c.width != t.width || c.height != t.height) then
      (st, [Event.warnSkip key])
    else
      let dims := (t.width, t.height)
      let cb0 : BakeCBData :=
        { light_dir := (0, 0, 0), weight := 1 / (s.colors.length : ℝ), face := s.face }
      let r := bakeLoop dims t.data s.colors cb0 st.2 zeroAcc
      ((r.1, r.2.2.1),
        r.2.2.2 ++ (shSaves key r.1 ++ setValPass validation key r.1 r.2.1 r.2.2.1))

/-- From `main.cpp`: the whole processing loop over the catalog. -/
noncomputable def runAll (st : RunState) (validation : Bool) :
    List (String × InputTexSet) → RunState × List Event
  | [] => (st, [])
  | (key, s) :: rest =>
    let r := processSet st validation key s
    let r2 := runAll r.1 validation rest
    (r2.1, r.2 ++ r2.2)

/-- The uniform data of the bake dispatches among a list of events. -/
def dispatchCBs (evs : List Event) : List BakeCBData :=
  evs.filterMap fun e =>
    match e with
    | Event.dispatchBake cb => some cb
    | _ => none

/-- Whether an event is a file save (an output file of the pipeline). -/
def isSave : Event → Bool
  | Event.saveSh _ _ _ => true
  | Event.saveVal _ _ _ => true
  | _ => false

/-- The output-file events among a list of events. -/
def savedFiles (evs : List Event) : List Event := evs.filter isSave

/-- The validation-pass events among a list of events. -/
def valEvents (evs : List Event) : List Event :=
  evs.filter fun e =>
    match e with
    | Event.dispatchValidation _ => true
    | Event.saveVal _ _ _ => true
    | _ => false

/-- From `main.cpp` (`faceStrToUint`): the `KEYMAP` of face strings. -/
def faceKeymap : List (String × ℕ) :=
  [("+x", 0), ("-x", 1), ("+y", 2), ("-y", 3), ("+z", 4)]

/-- From `main.cpp` (`faceStrToUint`): `KEYMAP.at(str)`; `none` models the
`std::out_of_range` exception `std::map::at` throws on a missing key. -/
def faceStrToUint (s : String) : Option ℕ :=
  (faceKeymap.find? fun p => p.1 == s).map Prod.snd

/-- `std::filesystem::path::extension()` of a plain filename: the suffix
from the last period on, where a single leading period (a dotfile) and the
special names are not extension starts. -/
def extension (name : String) : String :=
  if name == "." || name == ".." then ""
  else
    match name.data with
    | [] => ""
    | _ :: rest =>
      if rest.contains '.' then
        String.mk ('.' :: (name.data.reverse.takeWhile fun c => c != '.').reverse)
      else ""

/-- Whether a character list matches the RE2 fragment
`[+-]?(\d*\.\d+|\d+\.\d*|\d+)` (a signed decimal) of `color_file_re` in
`main.cpp`. -/
def matchNum (cs : List Char) : Bool :=
  let body :=
    match cs with
    | c :: rest => if c == '+' || c == '-' then rest else cs
    | [] => []
  !body.isEmpty && body.all (fun c => c.isDigit || c == '.') &&
    decide (body.count '.' ≤ 1) && body.any (fun c => c.isDigit)

/-- Whether two characters match the RE2 fragment `[+-][xyz]` of the
filename patterns in `main.cpp`. -/
def isFacePair (f1 f2 : Char) : Bool :=
  (f1 == '+' || f1 == '-') && (f2 == 'x' || f2 == 'y' || f2 == 'z')

/-- From `main.cpp` (`tr_file_re`): full match of
`^(.*)_([+-][xyz])_tr.dds$` (the unescaped `.` matches any character), with
the identifier and face captures. The suffix after the identifier is 10
characters long, so the decomposition is unique. -/
def matchTr (name : String) : Option (String × String) :=
  let cs := name.data
  let n := cs.length
  match cs.drop (n - 10) with
  | '_' :: f1 :: f2 :: '_' :: 't' :: 'r' :: _ :: 'd' :: 'd' :: 's' :: [] =>
    if isFacePair f1 f2 && decide (10 ≤ n) then
      some (String.mk (cs.take (n - 10)), String.mk [f1, f2])
    else none
  | _ => none

/-- Helper for `matchColor`: whether the characters after the identifier's
underscore match `([+-][xyz])_(D)_(D)_(D).dds` where `D` is `matchNum`'s
signed decimal; returns the face capture. The final `.` of the pattern is
unescaped and matches any character, and `D` cannot contain an underscore,
so for a fixed identifier the decomposition is unique. -/
def checkColorRest (rest : List Char) : Option String :=
  match rest with
  | f1 :: f2 :: '_' :: body =>
    if isFacePair f1 f2 then
      let mid := body.take (body.length - 4)
      match body.drop (body.length - 4) with
      | _ :: 'd' :: 'd' :: 's' :: [] =>
        match mid.splitOn '_' with
        | [d1, d2, d3] =>
          if matchNum d1 && matchNum d2 && matchNum d3 then some (String.mk [f1, f2])
          else none
        | _ => none
      | _ => none
    else none
  | _ => none

/-- From `main.cpp` (`color_file_re`): full match of
`^(.*)_([+-][xyz])_(D)_(D)_(D).dds$`, with the identifier and face
captures. `(.*)` is greedy, so among all decompositions the one with the
longest identifier is captured. -/
def matchColor (name : String) : Option (String × String) :=
  let cs := name.data
  (List.range cs.length).reverse.findSome? fun k =>
    if cs.get? k == some '_' then
      (checkColorRest (cs.drop (k + 1))).map fun f => (String.mk (cs.take k), f)
    else none

/-- Outcome of the external image load in the ingestion loop
(`CreateDDSTextureFromFile` and the `ID3D11Texture2D` query). -/
inductive LoadResult where
  | ok2D
  | notLoadable
  | not2D

/-- Per-file outcome of the ingestion loop of `main.cpp` (the body of the
`directory_iterator` loop). `fatalFace` models the uncaught
`std::out_of_range` from `faceStrToUint` (`std::map::at` on a face string
missing from `KEYMAP`), which terminates the process. -/
inductive FileEvent where
  | skipNonDds
  | warnNoMatch
  | warnReadFail
  | warnNot2D
  | addedTr (key : String) (face : ℕ)
  | addedColor (key : String) (face : ℕ)
  | fatalFace (faceStr : String)
deriving DecidableEq

/-- From `main.cpp`: ingestion of one directory entry (the body of the
read-textures loop): skip non-`.dds` extensions, try the transmittance
pattern then the color pattern, warn and skip on no match, warn and skip
when the image cannot be read or is not 2D, then store the texture under
`identifier_face` and look the face string up with `faceStrToUint` (which
throws on a face string outside `KEYMAP`). -/
def readFile (name : String) (load : LoadResult) : FileEvent :=
  if extension name != ".dds" then FileEvent.skipNonDds
  else
    let m : Option (String × String × Bool) :=
      match matchTr name with
      | some (id, f) => some (id, f, true)
      | none =>
        match matchColor name with
        | some (id, f) => some (id, f, false)
        | none => none
    match m with
    | none => FileEvent.warnNoMatch
    | some (id, f, is_tr) =>
      match load with
      | LoadResult.notLoadable => FileEvent.warnReadFail
      | LoadResult.not2D => FileEvent.warnNot2D
      | LoadResult.ok2D =>
        match faceStrToUint f with
        | some u =>
          if is_tr then FileEvent.addedTr (id ++ "_" ++ f) u
          else FileEvent.addedColor (id ++ "_" ++ f) u
        | none => FileEvent.fatalFace f

/-- Whether a file outcome is the process-terminating exception. -/
def isFatal : FileEvent → Bool
  | FileEvent.fatalFace _ => true
  | _ => false

/-- From `main.cpp`: the read-textures loop over the directory listing
(each entry paired with its external load outcome). An uncaught exception
terminates the loop and the process. -/
def runFiles : List (String × LoadResult) → List FileEvent
  | [] => []
  | (n, l) :: rest =>
    let e := readFile n l
    if isFatal e then [e] else e :: runFiles rest

/-- The spec's filename grammar (spec section 6): `{id}_{face}_tr.<ext>` or
`{id}_{face}_{lx}_{ly}_{lz}.<ext>` with the face drawn from the
*five*-element set `{+x, -x, +y, -y, +z}` - the structural patterns of
`main.cpp` restricted to the spec's face set. -/
def claimFaces : List String := ["+x", "-x", "+y", "-y", "+z"]

/-- Whether a filename matches the spec's grammar (five-face set). -/
def claimMatches (name : String) : Bool :=
  (match matchTr name with
   | some (_, f) => claimFaces.contains f
   | none => false) ||
  (match matchColor name with
   | some (_, f) => claimFaces.contains f
   | none => false)

/-- The GPU resources bound during one set's processing: the per-sample
radiance textures, the transmittance texture, the three SH accumulator
textures and the validation target. -/
inductive Res where
  | radiance (i : ℕ)
  | trTex
  | shCoeff (i : ℕ)
  | validTex
deriving DecidableEq

/-- The D3D11 context calls issued by `main.cpp` that matter for the
binding discipline. `setSrvs rs` models
`CSSetShaderResources(0, rs.size(), rs.data())` (slots `0..rs.size()-1`
overwritten), `setUavs` likewise for `CSSetUnorderedAccessViews`, `capture`
the `CaptureTexture` read inside `saveTextureToDDS`. -/
inductive Cmd where
  | updateCB
  | setSrvs (rs : List (Option Res))
  | setUavs (rs : List (Option Res))
  | setShader (validation : Bool)
  | dispatch
  | capture (r : Res)
deriving DecidableEq

/-- The compute-stage binding table: shader-resource slots and
unordered-access slots. -/
@[ext]
structure BindState where
  srv : ℕ → Option Res
  uav : ℕ → Option Res

/-- All compute-stage slots null. -/
def emptyBind : BindState := ⟨fun _ => none, fun _ => none⟩

/-- Overwrite slots `0..rs.length-1` of a slot table with the given list,
as `CSSetShaderResources(0, n, arr)` does. -/
def wr (f : ℕ → Option Res) (rs : List (Option Res)) : ℕ → Option Res :=
  fun s => if h : s < rs.length then rs.get ⟨s, h⟩ else f s

/-- Effect of one context call on the binding table. -/
def stepBind (b : BindState) : Cmd → BindState
  | Cmd.setSrvs rs => { b with srv := wr b.srv rs }
  | Cmd.setUavs rs => { b with uav := wr b.uav rs }
  | _ => b

/-- Run a command list over the binding table. -/
def runBind (b : BindState) (l : List Cmd) : BindState := l.foldl stepBind b

/-- The commands whose behaviour observes the current bindings: kernel
dispatches and captures. -/
def isObs : Cmd → Bool
  | Cmd.dispatch => true
  | Cmd.capture _ => true
  | _ => false

/-- The binding table as observed by every dispatch and capture of a
command list. -/
def obsBind (b : BindState) : List Cmd → List (Cmd × BindState)
  | [] => []
  | c :: rest => (if isObs c then [(c, b)] else []) ++ obsBind (stepBind b c) rest

/-- From `main.cpp`: the context calls of the `i`-th per-sample bake
dispatch - update the uniform buffer, bind the sample and transmittance
SRVs and the three accumulator UAVs, dispatch, then clear both binding
ranges to null. -/
def bakeBlock (i : ℕ) : List Cmd :=
  [Cmd.updateCB,
   Cmd.setSrvs [some (Res.radiance i), some Res.trTex],
   Cmd.setUavs [some (Res.shCoeff 0), some (Res.shCoeff 1), some (Res.shCoeff 2)],
   Cmd.dispatch,
   Cmd.setSrvs (List.replicate 2 none),
   Cmd.setUavs (List.replicate 3 none)]

/-- From `main.cpp`: the context calls of the validation pass - bind the
validation UAV and the four SRVs, switch shaders, dispatch, clear the one
UAV slot and the four SRV slots, then capture the validation texture. -/
def valBlock : List Cmd :=
  [Cmd.setUavs [some Res.validTex],
   Cmd.setSrvs [some (Res.shCoeff 0), some (Res.shCoeff 1), some (Res.shCoeff 2),
     some Res.trTex],
   Cmd.setShader true,
   Cmd.dispatch,
   Cmd.setUavs (List.replicate 1 none),
   Cmd.setSrvs (List.replicate 4 none),
   Cmd.capture Res.validTex]

/-- From `main.cpp`: the full context-call trace of one processed set with
`n` radiance samples - select the bake shader, run the `n` per-sample
blocks, capture the three accumulators for saving, then optionally run the
validation pass. -/
def setTrace (n : ℕ) (validation : Bool) : List Cmd :=
  Cmd.setShader false ::
    ((List.range n).flatMap bakeBlock ++
      ([Cmd.capture (Res.shCoeff 0), Cmd.capture (Res.shCoeff 1),
        Cmd.capture (Res.shCoeff 2)] ++
        if validation then valBlock else []))

/-- The bindings the `i`-th bake dispatch is meant to run with: exactly its
own two SRVs and three UAVs, nothing else. -/
def bakeBinds (i : ℕ) : BindState where
  srv s := if s = 0 then some (Res.radiance i) else if s = 1 then some Res.trTex else none
  uav s :=
    if s = 0 then some (Res.shCoeff 0)
    else if s = 1 then some (Res.shCoeff 1)
    else if s = 2 then some (Res.shCoeff 2)
    else none

/-- The bindings the validation dispatch is meant to run with. -/
def valBinds : BindState where
  srv s :=
    if s = 0 then some (Res.shCoeff 0)
    else if s = 1 then some (Res.shCoeff 1)
    else if s = 2 then some (Res.shCoeff 2)
    else if s = 3 then some Res.trTex
    else none
  uav s := if s = 0 then some Res.validTex else none

/-- What the claim requires every dispatch and capture of a set's trace to
observe: each bake dispatch exactly its own bindings, every capture an
all-null table, the validation dispatch exactly its own bindings. -/
def expectedObs (n : ℕ) (validation : Bool) : List (Cmd × BindState) :=
  ((List.range n).map fun i => (Cmd.dispatch, bakeBinds i)) ++
    ([(Cmd.capture (Res.shCoeff 0), emptyBind), (Cmd.capture (Res.shCoeff 1), emptyBind),
      (Cmd.capture (Res.shCoeff 2), emptyBind)] ++
      if validation then [(Cmd.dispatch, valBinds), (Cmd.capture Res.validTex, emptyBind)]
      else [])

/-- Slicing 9 SH coefficients into the three per-texel `Vec3` slots, as the
bake kernel's three `+=` statements lay them out (`C[0..2]`, `C[3..5]`,
`C[6..8]`). -/
noncomputable def shSlice (sh : Fin 9 → ℝ) : Fin 3 → Vec3 :=
  fun l =>
    match l with
    | 0 => (sh 0, sh 1, sh 2)
    | 1 => (sh 3, sh 4, sh 5)
    | 2 => (sh 6, sh 7, sh 8)

/-- A 4x4 transmittance image used as a concrete test input. -/
noncomputable def sampleTr : InputTexture := ⟨(1, 0, 0), 4, 4, fun _ => 1⟩

/-- A 4x4 radiance sample with light direction (0, 0, 1). -/
noncomputable def sampleColorA : InputTexture := ⟨(0, 0, 1), 4, 4, fun _ => 1⟩

/-- A 4x4 radiance sample with light direction (1, 0, 0). -/
noncomputable def sampleColorB : InputTexture := ⟨(1, 0, 0), 4, 4, fun _ => 2⟩

/-- A well-formed two-sample set on face +z. -/
noncomputable def sampleSet : InputTexSet := ⟨4, some sampleTr, [sampleColorA, sampleColorB]⟩

/-- A set with a transmittance image and no radiance samples. -/
noncomputable def noSampleSet : InputTexSet := ⟨4, some sampleTr, []⟩

/-- A set with no transmittance image. -/
noncomputable def noTrSet : InputTexSet := ⟨0, none, [sampleColorA]⟩

/-- A concrete pipeline state to start runs from. -/
noncomputable def sampleState : RunState := (zeroAcc, ⟨(0, 0, 0), 0, 0⟩)

/-- The canonical accumulator contents of a set after its bake loop,
computed from the set's own data alone (the GPU buffer seeded with the
set's own initial uniform data). -/
noncomputable def setAccum (s : InputTexSet) (t : InputTexture) : AccumImages :=
  (bakeLoop (t.width, t.height) t.data s.colors
    { light_dir := (0, 0, 0), weight := 1 / (s.colors.length : ℝ), face := s.face }
    { light_dir := (0, 0, 0), weight := 1 / (s.colors.length : ℝ), face := s.face }
    zeroAcc).1

/-- The canonical final host `cb_data` of a set's bake loop. -/
noncomputable def setHostCB (s : InputTexSet) (t : InputTexture) : BakeCBData :=
  (bakeLoop (t.width, t.height) t.data s.colors
    { light_dir := (0, 0, 0), weight := 1 / (s.colors.length : ℝ), face := s.face }
    { light_dir := (0, 0, 0), weight := 1 / (s.colors.length : ℝ), face := s.face }
    zeroAcc).2.1

/-- The canonical final GPU-buffer contents of a set's bake loop. -/
noncomputable def setBufCB (s : InputTexSet) (t : InputTexture) : BakeCBData :=
  (bakeLoop (t.width, t.height) t.data s.colors
    { light_dir := (0, 0, 0), weight := 1 / (s.colors.length : ℝ), face := s.face }
    { light_dir := (0, 0, 0), weight := 1 / (s.colors.length : ℝ), face := s.face }
    zeroAcc).2.2.1

/-- The output files a set produces, as a function of the set's own data
alone (its images, weight and face) - no state of previously processed
sets occurs in this definition. -/
noncomputable def setOutputs (validation : Bool) (key : String) (s : InputTexSet) :
    List Event :=
  match s.tr with
  | none => []
  | some t =>
    if s.colors.any (fun c => c.width != t.width || c.height != t.height) then []
    else
      shSaves key (setAccum s t) ++
        (if validation then
          [Event.saveVal key (setHostCB s t).light_dir
            (fun tid => validationTexel (fun l => setAccum s t l tid)
              (setBufCB s t).light_dir)]
         else [])

/-! ## Theorems -/

/-- A vector whose squared length is positive normalizes to unit length. -/
theorem norm3_normalize3 (a : Vec3) (h : 0 < a.1 ^ 2 + a.2.1 ^ 2 + a.2.2 ^ 2) :
    norm3 (normalize3 a) = 1 := by
  have hsq : norm3 a ^ 2 = a.1 ^ 2 + a.2.1 ^ 2 + a.2.2 ^ 2 := Real.sq_sqrt h.le
  have hn : norm3 a ≠ 0 := ne_of_gt (Real.sqrt_pos.mpr h)
  show Real.sqrt _ = 1
  have : (normalize3 a).1 ^ 2 + (normalize3 a).2.1 ^ 2 + (normalize3 a).2.2 ^ 2 = 1 := by
    show (a.1 / norm3 a) ^ 2 + (a.2.1 / norm3 a) ^ 2 + (a.2.2 / norm3 a) ^ 2 = 1
    field_simp
    rw [hsq]
  rw [this, Real.sqrt_one]

/-- C2: `Phase::MsHeuristic(cosθ, t)` is the two-lobe
`lerp(HG(c, 0.9882), Draine(c, 0.5557, 21.9955), 0.4820)` blended linearly
toward the isotropic constant `.25 / 3.1415926` with blend factor
`1 - t^0.5`; at `t = 1` it is exactly the two-lobe value, at `t = 0`
exactly the isotropic constant. -/
theorem msHeuristic_blend (c t : ℝ) :
    Phase.MsHeuristic c t =
      lerp (lerp (Phase.HG c 0.9882) (Phase.Draine c 0.5557 21.9955) 0.4820)
        Phase.scale (1 - Real.rpow t 0.5) ∧
    Phase.MsHeuristic c 1 = Phase.JendersieAt10um c ∧
    Phase.MsHeuristic c 0 = Phase.scale := by
  refine ⟨rfl, ?_, ?_⟩
  · unfold Phase.MsHeuristic
    have h1 : Real.rpow (1 : ℝ) 0.5 = 1 := Real.one_rpow 0.5
    rw [h1]
    unfold lerp
    ring
  · unfold Phase.MsHeuristic
    have h0 : Real.rpow (0 : ℝ) 0.5 = 0 := Real.zero_rpow (by norm_num)
    rw [h0]
    unfold lerp
    ring

/-- C3: for every face index below 5 and every texel uv, `viewDirFromFace`
is the normalization of the claimed per-face assembly of
`uv' = tan((uv - 0.5) * 0.5 * pi) * 0.5` (with the shader's pi literal),
the result is exactly unit length, and for face 4 at uv = (0.5, 0.5) it is
exactly (0, 0, 1). -/
theorem viewDir_face_mapping (face : ℕ) (hface : face < 5) (u v : ℝ) :
    viewDirFromFace face (u, v) =
      normalize3 (faceAssemble face
        (Real.tan ((u - 0.5) * 0.5 * hlslPi) * 0.5,
         Real.tan ((v - 0.5) * 0.5 * hlslPi) * 0.5)) ∧
    norm3 (viewDirFromFace face (u, v)) = 1 ∧
    viewDirFromFace 4 (0.5, 0.5) = (0, 0, 1) := by
  have hcenter : viewDirFromFace 4 (0.5, 0.5) = (0, 0, 1) := by
    have htan : Real.tan (((0.5 : ℝ) - 0.5) * 0.5 * hlslPi) = 0 := by
      rw [show ((0.5 : ℝ) - 0.5) * 0.5 * hlslPi = 0 by ring, Real.tan_zero]
    have h4 : Real.sqrt 4 = 2 := by
      rw [show (4 : ℝ) = 2 ^ 2 by norm_num]
      exact Real.sqrt_sq (by norm_num)
    unfold viewDirFromFace facePos faceAssemble normalize3 norm3
    rw [htan]
    norm_num [h4]
  refine ⟨rfl, ?_, hcenter⟩
  unfold viewDirFromFace
  interval_cases face <;>
    · apply norm3_normalize3
      unfold faceAssemble
      positivity

/-- Concrete instance of the face-mapping theorem at face 4. -/
theorem viewDir_face_mapping_witness :
    (4 : ℕ) < 5 ∧
    (viewDirFromFace 4 ((0.5 : ℝ), (0.5 : ℝ)) =
        normalize3 (faceAssemble 4
          (Real.tan (((0.5 : ℝ) - 0.5) * 0.5 * hlslPi) * 0.5,
           Real.tan (((0.5 : ℝ) - 0.5) * 0.5 * hlslPi) * 0.5)) ∧
      norm3 (viewDirFromFace 4 ((0.5 : ℝ), (0.5 : ℝ))) = 1 ∧
      viewDirFromFace 4 (0.5, 0.5) = (0, 0, 1)) :=
  ⟨by decide, viewDir_face_mapping 4 (by decide) 0.5 0.5⟩

/-- C1: per processed texel, the bake kernel reads the sample radiance and
the transmittance, forms `cosθ = dot(-view_dir, light_dir)`, divides the
radiance by `Phase::MsHeuristic(cosθ, t)`, projects the light direction
with value `corrected * weight * 4 * 3.1415926` onto the 9 SH basis
functions, and adds (does not overwrite) the 9 coefficients into the
accumulator slots. -/
theorem bakeTexel_accumulates (light_dir : Vec3) (weight : ℝ) (face : ℕ)
    (dims : ℕ × ℕ) (radiance tr : ℕ × ℕ → ℝ) (acc : Fin 3 → Vec3)
    (tid : ℕ × ℕ) :
    ∀ l : Fin 3,
      bakeTexel light_dir weight face dims radiance tr acc tid l =
        add3 (acc l)
          (shSlice
            (SH.ProjectOntoL2 light_dir
              ((radiance tid /
                  Phase.MsHeuristic
                    (dot3 (neg3 (viewDirFromFace face (texelUV dims tid))) light_dir)
                    (tr tid)) *
                weight * (4 * 3.1415926)))
            l) := by
  have hgoal : ∀ l : Fin 3, l = 0 ∨ l = 1 ∨ l = 2 := by decide
  intro l
  rcases hgoal l with h | h | h <;> subst h <;>
    · simp only [bakeTexel, shSlice, SH.ProjectOntoL2, add3, Prod.mk.injEq]
      and_intros <;> ring

/-- The run-loop distributes over catalog concatenation. -/
theorem runAll_events_append (st : RunState) (validation : Bool)
    (l1 l2 : List (String × InputTexSet)) :
    runAll st validation (l1 ++ l2) =
      ((runAll (runAll st validation l1).1 validation l2).1,
       (runAll st validation l1).2 ++ (runAll (runAll st validation l1).1 validation l2).2) := by
  induction l1 generalizing st with
  | nil => simp [runAll]
  | cons p rest ih =>
    obtain ⟨key, s⟩ := p
    simp [runAll, ih]

/-- C4: a set with no transmittance image, or with a radiance sample whose
dimensions differ from the transmittance image's, is skipped wholesale:
exactly one warning naming the set is emitted, the pipeline state is
untouched, no file is saved and no bake dispatch is issued for it, and a
run containing the set still processes everything before and after it. -/
theorem skip_set_policy (key : String) (s : InputTexSet) (st : RunState)
    (validation : Bool) (pre post : List (String × InputTexSet))
    (h : s.tr = none ∨
      ∃ t, s.tr = some t ∧ ∃ c ∈ s.colors, c.width ≠ t.width ∨ c.height ≠ t.height) :
    (processSet st validation key s).2 = [Event.warnSkip key] ∧
    (processSet st validation key s).1 = st ∧
    savedFiles (processSet st validation key s).2 = [] ∧
    dispatchCBs (processSet st validation key s).2 = [] ∧
    (runAll st validation (pre ++ (key, s) :: post)).2 =
      (runAll st validation pre).2 ++
        Event.warnSkip key :: (runAll (runAll st validation pre).1 validation post).2 := by
  have hskip : ∀ st' : RunState, processSet st' validation key s = (st', [Event.warnSkip key]) := by
    intro st'
    rcases h with h | ⟨t, ht, c, hc, hne⟩
    · simp [processSet, h]
    · have hany : s.colors.any (fun c => c.width != t.width || c.height != t.height) = true := by
        rw [List.any_eq_true]
        exact ⟨c, hc, by simpa [bne_iff_ne] using hne⟩
      simp [processSet, ht, hany]
  refine ⟨by rw [hskip], by rw [hskip], by rw [hskip]; rfl, by rw [hskip]; rfl, ?_⟩
  rw [runAll_events_append]
  simp [runAll, hskip]

/-- Concrete instance of the skip policy on a set lacking a transmittance
image. -/
theorem skip_set_policy_witness :
    (noTrSet.tr = none ∨
      ∃ t, noTrSet.tr = some t ∧
        ∃ c ∈ noTrSet.colors, c.width ≠ t.width ∨ c.height ≠ t.height) ∧
    ((processSet sampleState true ("k") noTrSet).2 = [Event.warnSkip ("k")] ∧
      (processSet sampleState true ("k") noTrSet).1 = sampleState ∧
      savedFiles (processSet sampleState true ("k") noTrSet).2 = [] ∧
      dispatchCBs (processSet sampleState true ("k") noTrSet).2 = [] ∧
      (runAll sampleState true ([] ++ (("k"), noTrSet) :: [])).2 =
        (runAll sampleState true []).2 ++
          Event.warnSkip ("k") ::
            (runAll (runAll sampleState true []).1 true []).2) :=
  ⟨Or.inl rfl, skip_set_policy ("k") noTrSet sampleState true [] [] (Or.inl rfl)⟩

/-- Summing a constant-valued map over a list. -/
theorem sum_map_const {α : Type} (l : List α) (w : ℝ) :
    (l.map fun _ => w).sum = l.length * w := by
  induction l with
  | nil => simp
  | cons a t ih =>
    simp [ih]
    ring

/-- The bake loop emits one dispatch per radiance sample, in order, each
carrying that sample's light direction and the loop's weight and face. -/
theorem bakeLoop_events (dims : ℕ × ℕ) (trd : ℕ × ℕ → ℝ) (cs : List InputTexture)
    (cb buf : BakeCBData) (acc : AccumImages) :
    (bakeLoop dims trd cs cb buf acc).2.2.2 =
      cs.map fun c => Event.dispatchBake ⟨c.light_direction, cb.weight, cb.face⟩ := by
  induction cs generalizing cb buf acc with
  | nil => rfl
  | cons c rest ih =>
    simp [bakeLoop, ih]

/-- `dispatchCBs` distributes over concatenation. -/
theorem dispatchCBs_append (l1 l2 : List Event) :
    dispatchCBs (l1 ++ l2) = dispatchCBs l1 ++ dispatchCBs l2 := by
  unfold dispatchCBs
  rw [List.filterMap_append]

/-- The accumulator saves contain no bake dispatch. -/
theorem dispatchCBs_shSaves (key : String) (acc : AccumImages) :
    dispatchCBs (shSaves key acc) = [] := rfl

/-- The validation pass contains no bake dispatch. -/
theorem dispatchCBs_setValPass (validation : Bool) (key : String) (acc : AccumImages)
    (cbN bufN : BakeCBData) :
    dispatchCBs (setValPass validation key acc cbN bufN) = [] := by
  cases validation <;> rfl

/-- Extracting the uniform data back out of a list of dispatch events. -/
theorem dispatchCBs_of_dispatches (cs : List InputTexture) (w : ℝ) (f : ℕ) :
    dispatchCBs (cs.map fun c => Event.dispatchBake ⟨c.light_direction, w, f⟩) =
      cs.map fun c => ⟨c.light_direction, w, f⟩ := by
  induction cs with
  | nil => rfl
  | cons c rest ih =>
    simp only [List.map_cons, dispatchCBs, List.filterMap_cons] at ih ⊢
    rw [ih]

/-- The bake dispatches of a successfully processed set are exactly one per
radiance sample, carrying the set's weight `1 / N` and face. -/
theorem processSet_dispatchCBs (key : String) (s : InputTexSet) (t : InputTexture)
    (st : RunState) (validation : Bool) (h1 : s.tr = some t)
    (h2 : s.colors.any (fun c => c.width != t.width || c.height != t.height) = false) :
    dispatchCBs (processSet st validation key s).2 =
      s.colors.map fun c =>
        ⟨c.light_direction, 1 / (s.colors.length : ℝ), s.face⟩ := by
  simp only [processSet, h1, h2, Bool.false_eq_true, if_false]
  rw [dispatchCBs_append, dispatchCBs_append, dispatchCBs_shSaves, dispatchCBs_setValPass,
    bakeLoop_events, dispatchCBs_of_dispatches]
  simp

/-- C6: for a successfully processed set with at least one radiance sample,
every bake dispatch carries the same weight `1 / N`, there are exactly `N`
dispatches, and the weights applied over all dispatches sum to 1. -/
theorem per_sample_weights (key : String) (s : InputTexSet) (t : InputTexture)
    (st : RunState) (validation : Bool) (h1 : s.tr = some t)
    (h2 : s.colors.any (fun c => c.width != t.width || c.height != t.height) = false)
    (h3 : s.colors.length ≠ 0) :
    (∀ cb ∈ dispatchCBs (processSet st validation key s).2,
        cb.weight = 1 / (s.colors.length : ℝ)) ∧
    (dispatchCBs (processSet st validation key s).2).length = s.colors.length ∧
    ((dispatchCBs (processSet st validation key s).2).map BakeCBData.weight).sum = 1 := by
  rw [processSet_dispatchCBs key s t st validation h1 h2]
  refine ⟨?_, by simp, ?_⟩
  · intro cb hcb
    rw [List.mem_map] at hcb
    obtain ⟨c, _, rfl⟩ := hcb
    rfl
  · rw [List.map_map]
    have hcomp : (BakeCBData.weight ∘ fun c : InputTexture =>
        (⟨c.light_direction, 1 / (s.colors.length : ℝ), s.face⟩ : BakeCBData)) =
        fun _ => 1 / (s.colors.length : ℝ) := rfl
    rw [hcomp, sum_map_const]
    have hn : (s.colors.length : ℝ) ≠ 0 := Nat.cast_ne_zero.mpr h3
    field_simp

/-- Concrete instance of the weight theorem on a two-sample set. -/
theorem per_sample_weights_witness :
    (sampleSet.tr = some sampleTr ∧
      sampleSet.colors.any
        (fun c => c.width != sampleTr.width || c.height != sampleTr.height) = false ∧
      sampleSet.colors.length ≠ 0) ∧
    ((∀ cb ∈ dispatchCBs (processSet sampleState false ("k6") sampleSet).2,
        cb.weight = 1 / (sampleSet.colors.length : ℝ)) ∧
      (dispatchCBs (processSet sampleState false ("k6") sampleSet).2).length =
        sampleSet.colors.length ∧
      ((dispatchCBs (processSet sampleState false ("k6") sampleSet).2).map
          BakeCBData.weight).sum = 1) :=
  ⟨⟨rfl, rfl, by decide⟩,
    per_sample_weights ("k6") sampleSet sampleTr sampleState false rfl rfl (by decide)⟩

/-- After a nonempty bake loop, the host `cb_data` holds the last sample's
light direction with the loop's weight and face, and the GPU constant
buffer holds exactly the host value (the last `UpdateSubresource`). -/
theorem bakeLoop_final_cb (dims : ℕ × ℕ) (trd : ℕ × ℕ → ℝ) (cs : List InputTexture)
    (cb buf : BakeCBData) (acc : AccumImages) (h : cs ≠ []) :
    (bakeLoop dims trd cs cb buf acc).2.1 =
      ⟨(cs.getLast h).light_direction, cb.weight, cb.face⟩ ∧
    (bakeLoop dims trd cs cb buf acc).2.2.1 = (bakeLoop dims trd cs cb buf acc).2.1 := by
  induction cs generalizing cb buf acc with
  | nil => exact absurd rfl h
  | cons c rest ih =>
    cases rest with
    | nil => exact ⟨rfl, rfl⟩
    | cons c2 r2 =>
      have ih2 := ih ({cb with light_dir := c.light_direction})
        ({cb with light_dir := c.light_direction})
        (dispatchImage ({cb with light_dir := c.light_direction}) c.data trd dims acc)
        (List.cons_ne_nil c2 r2)
      refine ⟨?_, ih2.2⟩
      rw [show (bakeLoop dims trd (c :: c2 :: r2) cb buf acc).2.1 =
        (bakeLoop dims trd (c2 :: r2) ({cb with light_dir := c.light_direction})
          ({cb with light_dir := c.light_direction})
          (dispatchImage ({cb with light_dir := c.light_direction}) c.data trd dims acc)).2.1
        from rfl]
      rw [ih2.1]
      rw [List.getLast_cons (List.cons_ne_nil c2 r2)]

/-- `valEvents` distributes over concatenation. -/
theorem valEvents_append (l1 l2 : List Event) :
    valEvents (l1 ++ l2) = valEvents l1 ++ valEvents l2 := by
  unfold valEvents
  rw [List.filter_append]

/-- Bake dispatches are not validation events. -/
theorem valEvents_dispatches (cs : List InputTexture) (w : ℝ) (f : ℕ) :
    valEvents (cs.map fun c => Event.dispatchBake ⟨c.light_direction, w, f⟩) = [] := by
  induction cs with
  | nil => rfl
  | cons c rest ih =>
    simp only [List.map_cons, valEvents, List.filter_cons] at ih ⊢
    exact ih

/-- Accumulator saves are not validation events. -/
theorem valEvents_shSaves (key : String) (acc : AccumImages) :
    valEvents (shSaves key acc) = [] := rfl

/-- The validation pass, when enabled, contributes exactly its dispatch and
its save. -/
theorem valEvents_setValPass_true (key : String) (acc : AccumImages)
    (cbN bufN : BakeCBData) :
    valEvents (setValPass true key acc cbN bufN) =
      [Event.dispatchValidation bufN.light_dir,
       Event.saveVal key cbN.light_dir
         (fun tid => validationTexel (fun l => acc l tid) bufN.light_dir)] := rfl

/-- C7: when validation output is configured, a successfully processed set
with at least one radiance sample dispatches the validation kernel with
the light direction of the *last* radiance sample (still in the constant
buffer) and saves the reconstruction under a name formatted from that same
direction. -/
theorem validation_uses_last_direction (key : String) (s : InputTexSet)
    (t : InputTexture) (st : RunState) (h1 : s.tr = some t)
    (h2 : s.colors.any (fun c => c.width != t.width || c.height != t.height) = false)
    (h3 : s.colors ≠ []) :
    ∃ content,
      valEvents (processSet st true key s).2 =
        [Event.dispatchValidation (s.colors.getLast h3).light_direction,
         Event.saveVal key (s.colors.getLast h3).light_direction content] := by
  simp only [processSet, h1, h2, Bool.false_eq_true, if_false]
  rw [valEvents_append, valEvents_append, bakeLoop_events, valEvents_dispatches,
    valEvents_shSaves]
  have hcb := bakeLoop_final_cb (t.width, t.height) t.data s.colors
    ⟨(0, 0, 0), 1 / (s.colors.length : ℝ), s.face⟩ st.2 zeroAcc h3
  refine ⟨fun tid => validationTexel
    (fun l => (bakeLoop (t.width, t.height) t.data s.colors
      ⟨(0, 0, 0), 1 / (s.colors.length : ℝ), s.face⟩ st.2 zeroAcc).1 l tid)
    (bakeLoop (t.width, t.height) t.data s.colors
      ⟨(0, 0, 0), 1 / (s.colors.length : ℝ), s.face⟩ st.2 zeroAcc).2.2.1.light_dir, ?_⟩
  rw [valEvents_setValPass_true, hcb.2, hcb.1]
  rfl

/-- Concrete instance of the last-direction theorem on a two-sample set. -/
theorem validation_uses_last_direction_witness :
    (sampleSet.tr = some sampleTr ∧
      sampleSet.colors.any
        (fun c => c.width != sampleTr.width || c.height != sampleTr.height) = false ∧
      sampleSet.colors ≠ []) ∧
    ∃ content,
      valEvents (processSet sampleState true ("k7") sampleSet).2 =
        [Event.dispatchValidation
          ((sampleSet.colors.getLast (List.cons_ne_nil _ _)).light_direction),
         Event.saveVal ("k7")
          ((sampleSet.colors.getLast (List.cons_ne_nil _ _)).light_direction) content] :=
  ⟨⟨rfl, rfl, List.cons_ne_nil _ _⟩,
    validation_uses_last_direction ("k7") sampleSet sampleTr sampleState rfl rfl
      (List.cons_ne_nil _ _)⟩

/-- Reconstructing from all-zero SH coefficients yields zero. -/
theorem validationTexel_zeroAcc (d : Vec3) :
    validationTexel (fun _ => ((0 : ℝ), (0 : ℝ), (0 : ℝ))) d = 0 := by
  have hpack : ∀ i : Fin 9, packL2 (fun _ => ((0 : ℝ), (0 : ℝ), (0 : ℝ))) i = 0 := by
    intro i
    fin_cases i <;> rfl
  unfold validationTexel SH.Evaluate
  refine Finset.sum_eq_zero ?_
  intro i _
  rw [hpack i, zero_mul]

/-- The bake loop's accumulators, final host `cb_data` and dispatch events
do not depend on the incoming GPU-buffer contents. -/
theorem bakeLoop_buf_irrel (dims : ℕ × ℕ) (trd : ℕ × ℕ → ℝ) (cs : List InputTexture)
    (cb buf buf' : BakeCBData) (acc : AccumImages) :
    (bakeLoop dims trd cs cb buf acc).1 = (bakeLoop dims trd cs cb buf' acc).1 ∧
    (bakeLoop dims trd cs cb buf acc).2.1 = (bakeLoop dims trd cs cb buf' acc).2.1 ∧
    (bakeLoop dims trd cs cb buf acc).2.2.2 = (bakeLoop dims trd cs cb buf' acc).2.2.2 := by
  cases cs with
  | nil => exact ⟨rfl, rfl, rfl⟩
  | cons c rest => exact ⟨rfl, rfl, rfl⟩

/-- The validation reconstruction contents do not depend on the incoming
GPU-buffer contents either: with samples present the buffer was rewritten,
and with no samples the accumulators are all zero and reconstruct to zero
at any direction. -/
theorem valdir_content_irrel (dims : ℕ × ℕ) (trd : ℕ × ℕ → ℝ) (cs : List InputTexture)
    (cb buf buf' : BakeCBData) :
    (fun tid => validationTexel (fun l => (bakeLoop dims trd cs cb buf' zeroAcc).1 l tid)
      (bakeLoop dims trd cs cb buf zeroAcc).2.2.1.light_dir) =
    (fun tid => validationTexel (fun l => (bakeLoop dims trd cs cb buf' zeroAcc).1 l tid)
      (bakeLoop dims trd cs cb buf' zeroAcc).2.2.1.light_dir) := by
  cases cs with
  | nil =>
    funext tid
    rw [show (fun l => (bakeLoop dims trd [] cb buf' zeroAcc).1 l tid) =
      (fun _ : Fin 3 => ((0 : ℝ), (0 : ℝ), (0 : ℝ))) from rfl]
    rw [validationTexel_zeroAcc, validationTexel_zeroAcc]
  | cons c rest => rfl

/-- `savedFiles` distributes over concatenation. -/
theorem savedFiles_append (l1 l2 : List Event) :
    savedFiles (l1 ++ l2) = savedFiles l1 ++ savedFiles l2 := by
  unfold savedFiles
  rw [List.filter_append]

/-- Bake dispatches are not file saves. -/
theorem savedFiles_dispatches (cs : List InputTexture) (w : ℝ) (f : ℕ) :
    savedFiles (cs.map fun c => Event.dispatchBake ⟨c.light_direction, w, f⟩) = [] := by
  induction cs with
  | nil => rfl
  | cons c rest ih =>
    simp only [List.map_cons, savedFiles, List.filter_cons] at ih ⊢
    exact ih

/-- The accumulator saves are all file saves. -/
theorem savedFiles_shSaves (key : String) (acc : AccumImages) :
    savedFiles (shSaves key acc) = shSaves key acc := rfl

/-- The file saves of the validation pass: its save, without its dispatch. -/
theorem savedFiles_setValPass (validation : Bool) (key : String) (acc : AccumImages)
    (cbN bufN : BakeCBData) :
    savedFiles (setValPass validation key acc cbN bufN) =
      if validation then
        [Event.saveVal key cbN.light_dir
          (fun tid => validationTexel (fun l => acc l tid) bufN.light_dir)]
      else [] := by
  cases validation <;> rfl

/-- The files a set's processing saves are exactly `setOutputs`, a function
of the set's own data alone, whatever pipeline state is carried in. -/
theorem processSet_savedFiles (key : String) (s : InputTexSet) (validation : Bool)
    (st : RunState) :
    savedFiles (processSet st validation key s).2 = setOutputs validation key s := by
  cases htr : s.tr with
  | none => simp [processSet, setOutputs, htr, savedFiles, isSave]
  | some t =>
    by_cases hany : s.colors.any (fun c => c.width != t.width || c.height != t.height) = true
    · simp [processSet, setOutputs, htr, hany, savedFiles, isSave]
    · have hany' : s.colors.any (fun c => c.width != t.width || c.height != t.height) = false :=
        Bool.eq_false_iff.mpr hany
      simp only [processSet, setOutputs, htr, hany', Bool.false_eq_true, if_false]
      rw [savedFiles_append, savedFiles_append, bakeLoop_events, savedFiles_dispatches,
        savedFiles_shSaves, savedFiles_setValPass, List.nil_append]
      have hirr := bakeLoop_buf_irrel (t.width, t.height) t.data s.colors
        { light_dir := (0, 0, 0), weight := 1 / (s.colors.length : ℝ), face := s.face }
        st.2
        { light_dir := (0, 0, 0), weight := 1 / (s.colors.length : ℝ), face := s.face }
        zeroAcc
      rw [hirr.1, hirr.2.1]
      rw [valdir_content_irrel (t.width, t.height) t.data s.colors
        { light_dir := (0, 0, 0), weight := 1 / (s.colors.length : ℝ), face := s.face }
        st.2
        { light_dir := (0, 0, 0), weight := 1 / (s.colors.length : ℝ), face := s.face }]
      rfl

/-- Over a whole run, the saved files are the concatenation of each set's
own `setOutputs`, independent of the carried pipeline state. -/
theorem run_savedFiles (validation : Bool) (sets : List (String × InputTexSet))
    (st : RunState) :
    savedFiles (runAll st validation sets).2 =
      sets.flatMap fun p => setOutputs validation p.1 p.2 := by
  induction sets generalizing st with
  | nil => rfl
  | cons p rest ih =>
    obtain ⟨key, s⟩ := p
    show savedFiles ((processSet st validation key s).2 ++ _) = _
    rw [savedFiles_append, processSet_savedFiles, ih, List.flatMap_cons]

/-- C9: the accumulators a set's dispatch loop starts from are all-zero
(the cleared images), and consequently the files saved for a set - in a
single-set step or anywhere in a whole run - are a function of that set's
own data only, identical whatever accumulator or uniform-buffer state
earlier sets left behind. -/
theorem accumulator_isolation (key : String) (s : InputTexSet) (validation : Bool)
    (st st' : RunState) (sets : List (String × InputTexSet)) :
    (∀ (l : Fin 3) (tid : ℕ × ℕ), zeroAcc l tid = (0, 0, 0)) ∧
    savedFiles (processSet st validation key s).2 =
      savedFiles (processSet st' validation key s).2 ∧
    savedFiles (runAll st validation sets).2 =
      savedFiles (runAll st' validation sets).2 :=
  ⟨fun _ _ => rfl,
   by rw [processSet_savedFiles, processSet_savedFiles],
   by rw [run_savedFiles, run_savedFiles]⟩

/-- C10: a set holding a transmittance image but zero radiance samples is
not skipped and draws no warning; no bake dispatch is issued (so the
`1/0` weight is never applied), yet all three `{key}_sh{0,1,2}` files are
still written, containing only the zero-cleared accumulator contents (and,
if validation is on, a validation image that is identically zero, named
from the never-updated host light direction `(0,0,0)`). -/
theorem empty_set_still_saves (key : String) (s : InputTexSet) (t : InputTexture)
    (st : RunState) (validation : Bool) (h1 : s.tr = some t) (h2 : s.colors = []) :
    (∀ k, Event.warnSkip k ∉ (processSet st validation key s).2) ∧
    dispatchCBs (processSet st validation key s).2 = [] ∧
    savedFiles (processSet st validation key s).2 =
      [Event.saveSh key 0 (fun _ => (0, 0, 0)), Event.saveSh key 1 (fun _ => (0, 0, 0)),
       Event.saveSh key 2 (fun _ => (0, 0, 0))] ++
        (if validation then
          [Event.saveVal key ((0 : ℝ), (0 : ℝ), (0 : ℝ)) (fun _ => (0 : ℝ))]
         else []) := by
  have hany : s.colors.any (fun c => c.width != t.width || c.height != t.height) = false := by
    rw [h2]
    rfl
  have hev : (processSet st validation key s).2 =
      shSaves key zeroAcc ++
        setValPass validation key zeroAcc
          { light_dir := (0, 0, 0), weight := 1 / ((0 : ℕ) : ℝ), face := s.face } st.2 := by
    simp only [processSet, h1, hany, Bool.false_eq_true, if_false, h2]
    rfl
  refine ⟨?_, ?_, ?_⟩
  · intro k
    rw [hev]
    cases validation <;> simp [shSaves, setValPass]
  · rw [hev, dispatchCBs_append, dispatchCBs_shSaves, dispatchCBs_setValPass]
    rfl
  · rw [hev, savedFiles_append, savedFiles_shSaves, savedFiles_setValPass]
    cases validation with
    | false => rfl
    | true =>
      rw [if_pos rfl, if_pos rfl]
      have hcontent : (fun tid => validationTexel (fun l => zeroAcc l tid)
          st.2.light_dir) = fun _ : ℕ × ℕ => (0 : ℝ) := by
        funext tid
        exact validationTexel_zeroAcc st.2.light_dir
      rw [hcontent]
      rfl

/-- Concrete instance of the zero-sample behaviour. -/
theorem empty_set_still_saves_witness :
    (noSampleSet.tr = some sampleTr ∧ noSampleSet.colors = []) ∧
    ((∀ k, Event.warnSkip k ∉ (processSet sampleState false ("kz") noSampleSet).2) ∧
      dispatchCBs (processSet sampleState false ("kz") noSampleSet).2 = [] ∧
      savedFiles (processSet sampleState false ("kz") noSampleSet).2 =
        [Event.saveSh ("kz") 0 (fun _ => (0, 0, 0)),
         Event.saveSh ("kz") 1 (fun _ => (0, 0, 0)),
         Event.saveSh ("kz") 2 (fun _ => (0, 0, 0))] ++
          (if false then
            [Event.saveVal ("kz") ((0 : ℝ), (0 : ℝ), (0 : ℝ)) (fun _ => (0 : ℝ))]
           else [])) :=
  ⟨⟨rfl, rfl⟩, empty_set_still_saves ("kz") noSampleSet sampleTr sampleState false rfl rfl⟩

/-- Observations split along trace concatenation, threading the binding
state. -/
theorem obsBind_append (b : BindState) (l1 l2 : List Cmd) :
    obsBind b (l1 ++ l2) = obsBind b l1 ++ obsBind (runBind b l1) l2 := by
  induction l1 generalizing b with
  | nil => rfl
  | cons c rest ih =>
    show (if isObs c then [(c, b)] else []) ++ obsBind (stepBind b c) (rest ++ l2) = _
    rw [ih (stepBind b c), ← List.append_assoc]
    rfl

/-- `runBind` splits along trace concatenation. -/
theorem runBind_append (b : BindState) (l1 l2 : List Cmd) :
    runBind b (l1 ++ l2) = runBind (runBind b l1) l2 := by
  unfold runBind
  rw [List.foldl_append]

/-- Writing an all-null list over a slot table nulls its prefix. -/
theorem wr_replicate_none (f : ℕ → Option Res) (k : ℕ) :
    wr f (List.replicate k none) = fun s => if s < k then none else f s := by
  funext s
  simp only [wr, List.length_replicate]
  split
  · exact List.get_replicate _ _
  · rfl

/-- Overwriting a range of an all-null table and then nulling it again is a
no-op. -/
theorem wr_wr_clear (f : ℕ → Option Res) (l : List (Option Res)) (k : ℕ)
    (hk : l.length = k) (hf : ∀ s, f s = none) :
    wr (wr f l) (List.replicate k none) = fun _ => none := by
  funext s
  rw [wr_replicate_none]
  show (if s < k then none else wr f l s) = none
  by_cases h : s < k
  · rw [if_pos h]
  · rw [if_neg h]
    have h' : ¬ s < l.length := by rw [hk]; exact h
    unfold wr
    rw [dif_neg h']
    exact hf s

/-- Writing a two-slot range, slotwise. -/
theorem wr_two (f : ℕ → Option Res) (a b : Option Res) :
    wr f [a, b] = fun s => if s = 0 then a else if s = 1 then b else f s := by
  funext s
  match s with
  | 0 => rfl
  | 1 => rfl
  | (n + 2) => rfl

/-- Writing a three-slot range, slotwise. -/
theorem wr_three (f : ℕ → Option Res) (a b c : Option Res) :
    wr f [a, b, c] =
      fun s => if s = 0 then a else if s = 1 then b else if s = 2 then c else f s := by
  funext s
  match s with
  | 0 => rfl
  | 1 => rfl
  | 2 => rfl
  | (n + 3) => rfl

/-- Writing a four-slot range, slotwise. -/
theorem wr_four (f : ℕ → Option Res) (a b c d : Option Res) :
    wr f [a, b, c, d] =
      fun s => if s = 0 then a
        else if s = 1 then b else if s = 2 then c else if s = 3 then d else f s := by
  funext s
  match s with
  | 0 => rfl
  | 1 => rfl
  | 2 => rfl
  | 3 => rfl
  | (n + 4) => rfl

/-- Writing a one-slot range, slotwise. -/
theorem wr_one (f : ℕ → Option Res) (a : Option Res) :
    wr f [a] = fun s => if s = 0 then a else f s := by
  funext s
  match s with
  | 0 => rfl
  | (n + 1) => rfl

/-- One bake block returns the binding table to all-null. -/
theorem runBind_bakeBlock (i : ℕ) : runBind emptyBind (bakeBlock i) = emptyBind := by
  show (⟨wr (wr (fun _ => none) [some (Res.radiance i), some Res.trTex])
      (List.replicate 2 none),
    wr (wr (fun _ => none)
      [some (Res.shCoeff 0), some (Res.shCoeff 1), some (Res.shCoeff 2)])
      (List.replicate 3 none)⟩ : BindState) = emptyBind
  refine BindState.ext ?_ ?_
  · exact wr_wr_clear _ _ 2 rfl fun _ => rfl
  · exact wr_wr_clear _ _ 3 rfl fun _ => rfl

/-- One bake block's only observation is its dispatch, run with exactly its
own bindings. -/
theorem obsBind_bakeBlock (i : ℕ) :
    obsBind emptyBind (bakeBlock i) = [(Cmd.dispatch, bakeBinds i)] := by
  show [(Cmd.dispatch,
    (⟨wr (fun _ => none) [some (Res.radiance i), some Res.trTex],
      wr (fun _ => none)
        [some (Res.shCoeff 0), some (Res.shCoeff 1), some (Res.shCoeff 2)]⟩ : BindState))] = _
  refine congrArg (fun st => [(Cmd.dispatch, st)]) (BindState.ext ?_ ?_)
  · rw [wr_two]
    rfl
  · rw [wr_three]
    rfl

/-- The validation block's observations: its dispatch with exactly its own
bindings, then the capture of the validation image with everything
cleared. -/
theorem obsBind_valBlock :
    obsBind emptyBind valBlock =
      [(Cmd.dispatch, valBinds), (Cmd.capture Res.validTex, emptyBind)] := by
  show [(Cmd.dispatch,
      (⟨wr (fun _ => none)
          [some (Res.shCoeff 0), some (Res.shCoeff 1), some (Res.shCoeff 2), some Res.trTex],
        wr (fun _ => none) [some Res.validTex]⟩ : BindState)),
    (Cmd.capture Res.validTex,
      (⟨wr (wr (fun _ => none)
          [some (Res.shCoeff 0), some (Res.shCoeff 1), some (Res.shCoeff 2), some Res.trTex])
          (List.replicate 4 none),
        wr (wr (fun _ => none) [some Res.validTex]) (List.replicate 1 none)⟩ : BindState))] = _
  refine congrArg₂ (fun s1 s2 =>
      [(Cmd.dispatch, s1), (Cmd.capture Res.validTex, s2)]) ?_ ?_
  · refine BindState.ext ?_ ?_
    · rw [wr_four]
      rfl
    · rw [wr_one]
      rfl
  · refine BindState.ext ?_ ?_
    · exact wr_wr_clear _ _ 4 rfl fun _ => rfl
    · exact wr_wr_clear _ _ 1 rfl fun _ => rfl

/-- The whole bake loop returns the binding table to all-null. -/
theorem runBind_bakeBlocks (n : ℕ) :
    runBind emptyBind ((List.range n).flatMap bakeBlock) = emptyBind := by
  induction n with
  | zero => rfl
  | succ m ih =>
    rw [List.range_succ, List.flatMap_append, runBind_append, ih]
    show runBind emptyBind (bakeBlock m ++ []) = emptyBind
    rw [List.append_nil, runBind_bakeBlock]

/-- The bake loop's observations are exactly its dispatches, each with its
own bindings. -/
theorem obsBind_bakeBlocks (n : ℕ) :
    obsBind emptyBind ((List.range n).flatMap bakeBlock) =
      (List.range n).map fun i => (Cmd.dispatch, bakeBinds i) := by
  induction n with
  | zero => rfl
  | succ m ih =>
    rw [List.range_succ, List.flatMap_append, obsBind_append, ih, runBind_bakeBlocks,
      List.map_append]
    show _ ++ obsBind emptyBind (bakeBlock m ++ []) = _ ++ [(Cmd.dispatch, bakeBinds m)]
    rw [List.append_nil, obsBind_bakeBlock]

/-- C8: in the full context-call trace of a processed set, every bake
dispatch observes exactly its own bindings, every accumulator capture
observes an all-null binding table, and the validation dispatch and
capture likewise - so no dispatch or capture ever observes a binding left
over from a previous dispatch. -/
theorem trace_bindings_cleared (n : ℕ) (validation : Bool) :
    obsBind emptyBind (setTrace n validation) = expectedObs n validation := by
  show obsBind emptyBind ((List.range n).flatMap bakeBlock ++ _) = _
  rw [obsBind_append, obsBind_bakeBlocks, runBind_bakeBlocks]
  unfold expectedObs
  rw [obsBind_append]
  show _ ++ ([(Cmd.capture (Res.shCoeff 0), emptyBind), (Cmd.capture (Res.shCoeff 1), emptyBind),
      (Cmd.capture (Res.shCoeff 2), emptyBind)] ++
    obsBind emptyBind (if validation then valBlock else [])) = _
  cases validation with
  | false => rfl
  | true =>
    show _ ++ (_ ++ obsBind emptyBind valBlock) = _
    rw [obsBind_valBlock, if_pos rfl]

/-- C5 (failing input): the filename `a_-z_tr.dds` does not match the
spec's five-face grammar, so per the claim it must be skipped with a
warning; but the code's regex `[+-][xyz]` accepts the face `-z`, the file
is ingested, and `faceStrToUint` (`KEYMAP.at`) has no `-z` entry - the
uncaught `std::out_of_range` terminates the run, and a later well-formed
file is never processed. A file that matches neither regex is warned and
skipped as the claim says. -/
theorem face_minus_z_aborts_run :
    claimMatches ("a_-z_tr.dds") = false ∧
    readFile ("a_-z_tr.dds") LoadResult.ok2D = FileEvent.fatalFace ("-z") ∧
    faceStrToUint ("-z") = none ∧
    runFiles [(("a_-z_tr.dds"), LoadResult.ok2D), (("b_+x_tr.dds"), LoadResult.ok2D)] =
      [FileEvent.fatalFace ("-z")] ∧
    readFile ("b_+x_tr.dds") LoadResult.ok2D = FileEvent.addedTr ("b_+x") 0 ∧
    readFile ("garbage.dds") LoadResult.ok2D = FileEvent.warnNoMatch :=
  ⟨by decide, by decide, by decide, by decide, by decide, by decide⟩

end CloudBakery
